import Mathlib

/-!
# Verification of the ERCOT public-data client core

Shallow embedding of the request-dispatch and reliability core of the
`madwilliam/ercot` repository: the schema-driven `PubApiClient.call`
argument binding (`src/ercot/pubapi_client.py`), the
`ErcotPublicDataClient` header/query construction, authentication,
rate limiter, pagination helper, and archive-sync pipeline
(`src/ercot_api/client.py`).

Python dictionaries of string keys are modelled as association lists
(`List (String × String)`); a Python value that only flows through the
client opaquely is modelled as a `String`.  Python `None` becomes
`Option.none`; truthiness of an optional string (`if self.config.api_key:`)
is `Option.none` or the empty string being falsy.
-/

namespace Ercot

/-- Lookup in an association list, modelling `d.get(k)` / `k in d`. -/
def lookupKV (kw : List (String × String)) (k : String) : Option String :=
  (kw.find? (fun p => p.1 == k)).map Prod.snd

/-- Remove every pair whose key lies in `names`, modelling
`kwargs.pop(name) for name in names` (popping an absent key in the
source is guarded by `if name in kwargs`, so removal of all listed
keys is equivalent). -/
def removeKeys (kw : List (String × String)) (names : List String) :
    List (String × String) :=
  kw.filter (fun p => !(names.contains p.1))

/-- Remove the single key `k`, modelling `kwargs.pop(k, None)`. -/
def removeKey (kw : List (String × String)) (k : String) :
    List (String × String) :=
  kw.filter (fun p => !(p.1 == k))

/-- One entry of an operation's `parameters` list: `{name, in, ...}`. -/
structure Param where
  name : String
  loc : String
  deriving Repr, DecidableEq

/-- An indexed operation, as built by `PubApiClient._index_operations`:
`{"method": ..., "path": ..., "parameters": ..., "requestBody": ...}`.
`requestBody : Bool` models truthiness of the spec's `requestBody` field. -/
structure Operation where
  method : String
  path : String
  parameters : List Param
  requestBody : Bool
  deriving Repr, DecidableEq

/-- The errors `PubApiClient.call` raises while binding arguments. -/
inductive CallError where
  | missingParams (names : List String)
  | unexpectedParams (names : List String)
  deriving Repr, DecidableEq

/-- The request handed to `PubApiClient.request` at the end of `call`. -/
structure BuiltRequest where
  method : String
  path : String
  query : List (String × String)
  headers : List (String × String)
  jsonBody : Option String
  data : Option String
  deriving Repr, DecidableEq

/-- Left-to-right, non-overlapping replacement of the pattern `pat` by
`rep` in a character list; `fuel` (instantiated with the subject's
length) makes the recursion structural. -/
def replaceChars (pat rep : List Char) : Nat → List Char → List Char
  | _, [] => []
  | 0, s => s
  | fuel + 1, c :: rest =>
    if pat ≠ [] ∧ pat.isPrefixOf (c :: rest) then
      rep ++ replaceChars pat rep fuel ((c :: rest).drop pat.length)
    else
      c :: replaceChars pat rep fuel rest

/-- String replacement built on `replaceChars`. -/
def stringReplace (s pat rep : String) : String :=
  ⟨replaceChars pat.data rep.data s.data.length s.data⟩

/-- `op["path"].format(**path_values)`: substitute `\x7bname\x7d`
placeholders by the bound values, verbatim (Python `str.format` performs
no URL encoding). -/
def formatPath (template : String) (values : List (String × String)) : String :=
  values.foldl (fun acc p => stringReplace acc ("\x7b" ++ p.1 ++ "\x7d") p.2) template

/-- Names of the operation's parameters declared at location `loc`,
deduplicated (the source builds a `set` comprehension). -/
def paramNames (op : Operation) (loc : String) : List String :=
  ((op.parameters.filter (fun p => p.loc == loc)).map Param.name).eraseDups

/-- Insertion sort by `≤` on strings, modelling Python `sorted`. -/
def insertSorted (x : String) : List String → List String
  | [] => [x]
  | y :: ys => if x ≤ y then x :: y :: ys else y :: insertSorted x ys

/-- `sorted(kwargs.keys())`. -/
def sortStrings (xs : List String) : List String :=
  xs.foldr insertSorted []

/-- `PubApiClient.call` after the operation has been resolved: binds the
keyword arguments `kwargs` against the operation's declared parameters,
exactly following `src/ercot/pubapi_client.py` lines 120-149. -/
def call (op : Operation) (kwargs : List (String × String)) :
    Except CallError BuiltRequest :=
  let pathParams := paramNames op "path"
  let queryParams := paramNames op "query"
  let headerParams := paramNames op "header"
  let missing := pathParams.filter (fun n => (lookupKV kwargs n).isNone)
  if missing ≠ [] then
    .error (.missingParams missing)
  else
    let pathValues := pathParams.filterMap
      (fun n => (lookupKV kwargs n).map (fun v => (n, v)))
    let kw1 := removeKeys kwargs pathParams
    let query := queryParams.filterMap
      (fun n => (lookupKV kw1 n).map (fun v => (n, v)))
    let kw2 := removeKeys kw1 queryParams
    let headers := headerParams.filterMap
      (fun n => (lookupKV kw2 n).map (fun v => (n, v)))
    let kw3 := removeKeys kw2 headerParams
    let jsonBody := lookupKV kw3 "json"
    let data := lookupKV (removeKey kw3 "json") "data"
    let kw4 := removeKey (removeKey kw3 "json") "data"
    let (jsonBody, kw5) :=
      if op.requestBody ∧ jsonBody = none ∧ data = none then
        (lookupKV kw4 "body", removeKey kw4 "body")
      else
        (jsonBody, kw4)
    if kw5 ≠ [] then
      .error (.unexpectedParams (sortStrings (kw5.map Prod.fst)))
    else
      .ok { method := op.method
            path := formatPath op.path pathValues
            query := query
            headers := headers
            jsonBody := jsonBody
            data := data }

/-- Python truthiness of an optional string: `None` and `""` are falsy. -/
def truthy : Option String → Bool
  | none => false
  | some s => !(s == "")

/-- The part of `ErcotClientConfig` the dispatch path reads. -/
structure ErcotClientConfig where
  apiKey : Option String
  apiKeyInQuery : Bool
  deriving Repr, DecidableEq

/-- `ErcotPublicDataClient._headers`: subscription-key header when the key
is configured in header mode, `Authorization: Bearer <token>` when an
id_token is held (`src/ercot_api/client.py` lines 87-93). -/
def ercotHeaders (cfg : ErcotClientConfig) (idToken : Option String) :
    List (String × String) :=
  (if truthy cfg.apiKey ∧ ¬cfg.apiKeyInQuery then
    [("Ocp-Apim-Subscription-Key", cfg.apiKey.getD "")]
  else []) ++
  (if truthy idToken then
    [("Authorization", "Bearer " ++ idToken.getD "")]
  else [])

/-- `ErcotPublicDataClient._query_api_key`: copy the caller's params and
add `subscription-key` when the key is configured in query mode
(`src/ercot_api/client.py` lines 95-99).  `params[k] = v` on a dict is
modelled by removing any existing binding and appending the new one. -/
def ercotQueryApiKey (cfg : ErcotClientConfig)
    (params : List (String × String)) : List (String × String) :=
  if truthy cfg.apiKey ∧ cfg.apiKeyInQuery then
    removeKey params "subscription-key" ++
      [("subscription-key", cfg.apiKey.getD "")]
  else params

/-- `PubApiClient._headers` (`src/ercot/pubapi_client.py` lines 78-82):
start from the caller-supplied extra headers, add the subscription-key
header in header mode. -/
def pubHeaders (cfg : ErcotClientConfig) (extra : List (String × String)) :
    List (String × String) :=
  if truthy cfg.apiKey ∧ ¬cfg.apiKeyInQuery then
    removeKey extra "Ocp-Apim-Subscription-Key" ++
      [("Ocp-Apim-Subscription-Key", cfg.apiKey.getD "")]
  else extra

/-- `PubApiClient._query_api_key` (`src/ercot/pubapi_client.py`
lines 84-88), identical to the ercot_api variant. -/
def pubQueryApiKey (cfg : ErcotClientConfig)
    (params : List (String × String)) : List (String × String) :=
  ercotQueryApiKey cfg params

/-- The token endpoint's observable response: HTTP status and the
`id_token` field of the JSON body (`None` when absent). -/
structure TokenResponse where
  status : Nat
  idToken : Option String
  deriving Repr, DecidableEq

/-- `ErcotPublicDataClient.authenticate` (`src/ercot_api/client.py`
lines 137-160), given the token endpoint's response: `raise_for_status`
rejects status ≥ 400, `if not token` rejects an absent or empty
`id_token`; only then is the token stored.  The returned state is the
client's `_id_token` slot after the call: the source mutates it in a
single assignment placed after every raise point, so each error branch
returns the slot unchanged. -/
def authenticate (idToken : Option String) (resp : TokenResponse) :
    Except String String × Option String :=
  if resp.status ≥ 400 then
    (.error "HTTPError", idToken)
  else if truthy resp.idToken then
    (.ok (resp.idToken.getD ""), resp.idToken)
  else
    (.error "Token response did not include id_token", idToken)

/-- One pass of the critical section of
`ErcotPublicDataClient._wait_for_rate_limit` (`src/ercot_api/client.py`
lines 106-115) for a configured positive `limit`: purge timestamps at or
before `now - window` from the front of the deque (oldest-first), then
record `now` only when fewer than `limit` remain.  When the deque is
still full the source sleeps and re-runs this same section at a later
`now`, leaving the deque untouched. -/
def rateLimitStep (limit : Nat) (window : Int) (ts : List Int) (now : Int) :
    List Int :=
  let purged := ts.dropWhile (fun t => t ≤ now - window)
  if purged.length < limit then purged ++ [now] else purged

/-- `_wait_for_rate_limit` over a whole run: the deque starts empty at
construction and each acquisition attempt rewrites it via
`rateLimitStep`. -/
def rateLimitRun (limit : Nat) (window : Int) (nows : List Int) : List Int :=
  nows.foldl (rateLimitStep limit window) []

/-- A page payload as `iter_report_pages` inspects it:
`data.get("_meta", {}).get("totalPages")` and `...get("currentPage")`.
A payload without `_meta` has both fields `none`. -/
structure Payload where
  totalPages : Option Int
  currentPage : Option Int
  deriving Repr, DecidableEq

/-- The stop test run after a yield (`src/ercot_api/client.py` lines
277-283): stop when either metadata field is missing, or when
`current_page + 1 >= total_pages`. -/
def metaStops (p : Payload) : Bool :=
  match p.totalPages, p.currentPage with
  | some t, some c => c + 1 ≥ t
  | _, _ => true

/-- The loop of `ErcotPublicDataClient.iter_report_pages`
(`src/ercot_api/client.py` lines 266-284), with the transport abstracted
as `fetch : page index → payload`.  Yields `(requested page, payload)`
pairs; each loop iteration issues exactly one request and one yield.
`fuel` bounds the recursion; every theorem below supplies enough fuel
that the `fuel = 0` branch is never reached. -/
def iterPagesGo (fetch : Nat → Payload) (maxPages : Option Nat) :
    Nat → Nat → Nat → List (Nat × Payload)
  | 0, _, _ => []
  | fuel + 1, page, fetched =>
    let data := fetch page
    (page, data) ::
      (if (maxPages.map (fun m => decide (fetched + 1 ≥ m))).getD false then []
       else if metaStops data then []
       else iterPagesGo fetch maxPages fuel (page + 1) (fetched + 1))

/-- `iter_report_pages` started at `page = 0`, `fetched = 0`. -/
def iterReportPages (fetch : Nat → Payload) (maxPages : Option Nat)
    (fuel : Nat) : List (Nat × Payload) :=
  iterPagesGo fetch maxPages fuel 0 0

/-- Observable events of one `update_archive` run, in order: the
`download_bundle` HTTP call, the mkdir-and-extract branch, and the
`print` statements (`'{id} already exist'` and `'retrying'`).  The
source prints nothing when an item exhausts its retries. -/
inductive ArchiveEvent where
  | download (id : Int)
  | extract (id : Int)
  | alreadyExist (id : Int)
  | retrying (id : Int)
  deriving Repr, DecidableEq

/-- The `while not done` loop of `update_archive` for one document id
(`src/ercot_api/client.py` lines 291-319), with the environment
abstracted as `dirExists : id → Bool` (the `os.path.exists(save_dir)`
check; directory names are injective in the id) and
`failsAt : id → attempt index → Bool` (whether `download_bundle` raises
on that attempt; extraction of a successfully downloaded bundle is
modelled as succeeding).  `attempt` is the source's `retry` counter and
`left = max_retry - attempt` the remaining retry budget: on a failure
with `retry < max_retry` the source prints `'retrying'`, increments
`retry` and loops; with `retry = max_retry` it breaks silently.  A
successful download checks `dirExists`: an existing directory prints
`'already exist'`, otherwise the payload is extracted; either way
`done = True` ends the loop. -/
def archiveItemGo (dirExists : Int → Bool) (failsAt : Int → Nat → Bool)
    (id : Int) : Nat → Nat → List ArchiveEvent
  | attempt, left =>
    .download id ::
      (if failsAt id attempt then
        match left with
        | 0 => []
        | left' + 1 => .retrying id :: archiveItemGo dirExists failsAt id (attempt + 1) left'
      else if dirExists id then [.alreadyExist id]
      else [.extract id])

/-- `ErcotPublicDataClient.update_archive` (`src/ercot_api/client.py`
lines 286-319) after the bundle listing has produced `ids`: process the
ids in listing order, each via the retry loop with `retry = 0` and
`max_retry = 3`. -/
def updateArchive (dirExists : Int → Bool) (failsAt : Int → Nat → Bool)
    (ids : List Int) : List ArchiveEvent :=
  ids.flatMap (fun id => archiveItemGo dirExists failsAt id 0 3)

/-- Number of `download_bundle` calls in an event trace. -/
def countDownloads (tr : List ArchiveEvent) : Nat :=
  (tr.filter (fun e => match e with | .download _ => true | _ => false)).length

/-- The events of a trace that concern document id `i`. -/
def eventsFor (tr : List ArchiveEvent) (i : Int) : List ArchiveEvent :=
  tr.filter (fun e => match e with
    | .download j => j == i
    | .extract j => j == i
    | .alreadyExist j => j == i
    | .retrying j => j == i)

/-! ## Theorems -/

/-- Resolving a key in a cons association list. -/
theorem lookupKV_cons (hd : String × String) (tl : List (String × String))
    (x : String) :
    lookupKV (hd :: tl) x =
      if hd.1 == x then some hd.2 else lookupKV tl x := by
  by_cases hb : (hd.1 == x) = true <;> simp [lookupKV, List.find?, hb]

/-- Appending a binding for a key absent from the list makes the key
resolve to the appended value. -/
theorem lookupKV_append_single (l : List (String × String)) (x v : String)
    (h : lookupKV l x = none) : lookupKV (l ++ [(x, v)]) x = some v := by
  induction l with
  | nil => simp [lookupKV, List.find?]
  | cons hd tl ih =>
    rw [List.cons_append, lookupKV_cons]
    rw [lookupKV_cons] at h
    by_cases hb : (hd.1 == x) = true
    · simp [hb] at h
    · simp only [hb, if_false]
      exact ih (by simpa [hb] using h)

/-- After `removeKey l x`, the key `x` resolves to nothing. -/
theorem lookupKV_removeKey_self (l : List (String × String)) (x : String) :
    lookupKV (removeKey l x) x = none := by
  induction l with
  | nil => rfl
  | cons hd tl ih =>
    by_cases hb : (hd.1 == x) = true
    · simpa [removeKey, List.filter, hb] using ih
    · rw [show removeKey (hd :: tl) x = hd :: removeKey tl x by
        simp [removeKey, List.filter, hb]]
      rw [lookupKV_cons]
      simp [hb, ih]

/-- The nonempty string `k` is truthy. -/
theorem truthy_some_of_ne (k : String) (hk : k ≠ "") :
    truthy (some k) = true := by
  simp [truthy]
  exact hk

/-- C8: `call` rejects a missing required path parameter with an error
naming exactly the full set of missing path-parameter names, whatever
else was supplied: the check runs first, on all path-parameter names at
once. -/
theorem call_missing_path_params_complete (op : Operation)
    (kwargs : List (String × String))
    (h : (paramNames op "path").filter
      (fun n => (lookupKV kwargs n).isNone) ≠ []) :
    call op kwargs = .error (.missingParams ((paramNames op "path").filter
      (fun n => (lookupKV kwargs n).isNone))) ∧
    ∀ n, n ∈ (paramNames op "path").filter
        (fun n => (lookupKV kwargs n).isNone) ↔
      (n ∈ paramNames op "path" ∧ lookupKV kwargs n = none) := by
  constructor
  · simp only [call]
    rw [if_pos h]
  · intro n
    simp [List.mem_filter, Option.isNone_iff_eq_none]

/-- Witness for `call_missing_path_params_complete`: an operation with
two path parameters and a query parameter, invoked with only the query
argument, fails naming both missing path parameters. -/
theorem call_missing_path_params_complete_witness :
    call { method := "GET", path := "/a/\x7ba\x7d/\x7bb\x7d",
           parameters := [⟨"a", "path"⟩, ⟨"b", "path"⟩, ⟨"q", "query"⟩],
           requestBody := false } [("q", "1")] =
      .error (.missingParams ["a", "b"]) :=
  (call_missing_path_params_complete
    { method := "GET", path := "/a/\x7ba\x7d/\x7bb\x7d",
      parameters := [⟨"a", "path"⟩, ⟨"b", "path"⟩, ⟨"q", "query"⟩],
      requestBody := false } [("q", "1")] (by decide)).1

/-- C3 counterexample: a body value supplied as `json` for an operation
that declares no request body is nevertheless accepted and forwarded —
`call` pops `json`/`data` before ever consulting `requestBody`. -/
theorem call_json_accepted_without_request_body :
    call { method := "GET", path := "/v", parameters := [],
           requestBody := false } [("json", "X")] =
      .ok { method := "GET", path := "/v", query := [], headers := [],
            jsonBody := some "X", data := none } := by
  rfl

/-- C3 amended: `json` and `data` arguments are accepted and forwarded
whether or not the operation declares a request body; only the `body`
argument is gated on the declared request body — rejected as an
unexpected parameter when the operation declares none, forwarded as the
JSON body when it declares one. -/
theorem call_body_argument_gating (method path v : String) (rb : Bool) :
    call { method := method, path := path, parameters := [],
           requestBody := rb } [("json", v)] =
      .ok { method := method, path := path, query := [], headers := [],
            jsonBody := some v, data := none } ∧
    call { method := method, path := path, parameters := [],
           requestBody := rb } [("data", v)] =
      .ok { method := method, path := path, query := [], headers := [],
            jsonBody := none, data := some v } ∧
    call { method := method, path := path, parameters := [],
           requestBody := false } [("body", v)] =
      .error (.unexpectedParams ["body"]) ∧
    call { method := method, path := path, parameters := [],
           requestBody := true } [("body", v)] =
      .ok { method := method, path := path, query := [], headers := [],
            jsonBody := some v, data := none } := by
  cases rb <;> exact ⟨rfl, rfl, rfl, rfl⟩

/-- C4 counterexample: a path-parameter value containing `/` is inserted
into the path template verbatim by `str.format`, not percent-encoded. -/
theorem call_path_value_not_encoded :
    call { method := "GET", path := "/item/\x7bid\x7d",
           parameters := [⟨"id", "path"⟩], requestBody := false }
        [("id", "a/b")] =
      .ok { method := "GET", path := "/item/a/b", query := [],
            headers := [], jsonBody := none, data := none } := by
  rfl

/-- C4 amended: path-parameter values are substituted into the template
by plain string formatting — the raw value replaces the placeholder with
no URL encoding of any kind, so the resolved path is the template's
prefix concatenated with the value exactly as supplied. -/
theorem call_path_substitution_verbatim (v : String) :
    call { method := "GET", path := "/item/\x7bid\x7d",
           parameters := [⟨"id", "path"⟩], requestBody := false }
        [("id", v)] =
      .ok { method := "GET", path := "/item/" ++ v,
            query := [], headers := [], jsonBody := none, data := none } := by
  have h : (⟨'/' :: 'i' :: 't' :: 'e' :: 'm' :: '/' :: (v.data ++ [])⟩ : String) =
      "/item/" ++ v := by
    rw [List.append_nil]
    rfl
  rw [← h]
  rfl

/-- C6: with a header-mode API key every dispatched request carries the
`Ocp-Apim-Subscription-Key` header and the query parameters stay free of
`subscription-key`; with a query-mode key the request's query carries
`subscription-key` and the headers never contain the subscription
header.  Both clients (`ErcotPublicDataClient` and `PubApiClient`)
behave identically. -/
theorem api_key_placement (k : String) (hk : k ≠ "") (tok : Option String)
    (params extra : List (String × String))
    (hp : lookupKV params "subscription-key" = none)
    (he : lookupKV extra "Ocp-Apim-Subscription-Key" = none) :
    (lookupKV (ercotHeaders ⟨some k, false⟩ tok) "Ocp-Apim-Subscription-Key"
        = some k ∧
      lookupKV (ercotQueryApiKey ⟨some k, false⟩ params) "subscription-key"
        = none) ∧
    (lookupKV (ercotHeaders ⟨some k, true⟩ tok) "Ocp-Apim-Subscription-Key"
        = none ∧
      lookupKV (ercotQueryApiKey ⟨some k, true⟩ params) "subscription-key"
        = some k) ∧
    (lookupKV (pubHeaders ⟨some k, false⟩ extra) "Ocp-Apim-Subscription-Key"
        = some k ∧
      lookupKV (pubQueryApiKey ⟨some k, false⟩ params) "subscription-key"
        = none) ∧
    (lookupKV (pubHeaders ⟨some k, true⟩ extra) "Ocp-Apim-Subscription-Key"
        = none ∧
      lookupKV (pubQueryApiKey ⟨some k, true⟩ params) "subscription-key"
        = some k) := by
  have ht := truthy_some_of_ne k hk
  refine ⟨⟨?_, ?_⟩, ⟨?_, ?_⟩, ⟨?_, ?_⟩, ⟨?_, ?_⟩⟩
  · cases htok : truthy tok <;>
      simp [ercotHeaders, ht, htok, lookupKV_cons]
  · simpa [ercotQueryApiKey, ht] using hp
  · cases htok : truthy tok <;>
      simp [ercotHeaders, ht, htok, lookupKV, List.find?]
  · rw [show ercotQueryApiKey ⟨some k, true⟩ params =
        removeKey params "subscription-key" ++ [("subscription-key", k)] by
      simp [ercotQueryApiKey, ht]]
    exact lookupKV_append_single _ _ _ (lookupKV_removeKey_self _ _)
  · rw [show pubHeaders ⟨some k, false⟩ extra =
        removeKey extra "Ocp-Apim-Subscription-Key" ++
          [("Ocp-Apim-Subscription-Key", k)] by
      simp [pubHeaders, ht]]
    exact lookupKV_append_single _ _ _ (lookupKV_removeKey_self _ _)
  · simpa [pubQueryApiKey, ercotQueryApiKey, ht] using hp
  · simpa [pubHeaders, ht] using he
  · rw [show pubQueryApiKey ⟨some k, true⟩ params =
        removeKey params "subscription-key" ++ [("subscription-key", k)] by
      simp [pubQueryApiKey, ercotQueryApiKey, ht]]
    exact lookupKV_append_single _ _ _ (lookupKV_removeKey_self _ _)

/-- Witness for `api_key_placement` at a concrete key, token and
parameter map. -/
theorem api_key_placement_witness :
    (lookupKV (ercotHeaders ⟨some "abc123", false⟩ (some "tok"))
        "Ocp-Apim-Subscription-Key" = some "abc123" ∧
      lookupKV (ercotQueryApiKey ⟨some "abc123", false⟩ [("page", "0")])
        "subscription-key" = none) ∧
    (lookupKV (ercotHeaders ⟨some "abc123", true⟩ (some "tok"))
        "Ocp-Apim-Subscription-Key" = none ∧
      lookupKV (ercotQueryApiKey ⟨some "abc123", true⟩ [("page", "0")])
        "subscription-key" = some "abc123") ∧
    (lookupKV (pubHeaders ⟨some "abc123", false⟩ [])
        "Ocp-Apim-Subscription-Key" = some "abc123" ∧
      lookupKV (pubQueryApiKey ⟨some "abc123", false⟩ [("page", "0")])
        "subscription-key" = none) ∧
    (lookupKV (pubHeaders ⟨some "abc123", true⟩ [])
        "Ocp-Apim-Subscription-Key" = none ∧
      lookupKV (pubQueryApiKey ⟨some "abc123", true⟩ [("page", "0")])
        "subscription-key" = some "abc123") :=
  api_key_placement "abc123" (by decide) (some "tok") [("page", "0")] []
    (by rfl) (by rfl)

/-- C7: a successful `authenticate` stores exactly the returned token,
and every request dispatched from that state carries
`Authorization: Bearer <token>`; with no token held (the client's
initial state) no `Authorization` header is sent. -/
theorem bearer_token_after_authenticate (cfg : ErcotClientConfig)
    (tok0 : Option String) (resp : TokenResponse) (t : String)
    (h : (authenticate tok0 resp).1 = .ok t) :
    (authenticate tok0 resp).2 = some t ∧
    lookupKV (ercotHeaders cfg (authenticate tok0 resp).2) "Authorization"
      = some ("Bearer " ++ t) ∧
    lookupKV (ercotHeaders cfg none) "Authorization" = none := by
  have hocp : ∀ v x, lookupKV [("Ocp-Apim-Subscription-Key", v)] x =
      if ("Ocp-Apim-Subscription-Key" == x) = true then some v else none := by
    intro v x
    rw [lookupKV_cons]
    rfl
  have hkeyless : lookupKV (if truthy cfg.apiKey = true ∧
        ¬cfg.apiKeyInQuery = true then
      [("Ocp-Apim-Subscription-Key", cfg.apiKey.getD "")] else [])
      "Authorization" = none := by
    by_cases hc : truthy cfg.apiKey = true ∧ ¬cfg.apiKeyInQuery = true
    · rw [if_pos hc, hocp]
      rfl
    · rw [if_neg hc]
      rfl
  have hnone : lookupKV (ercotHeaders cfg none) "Authorization" = none := by
    have hfa : truthy none = false := rfl
    simp only [ercotHeaders, hfa, Bool.false_eq_true, if_false,
      List.append_nil]
    exact hkeyless
  by_cases h4 : resp.status ≥ 400
  · simp [authenticate, h4] at h
  · cases hr : resp.idToken with
    | none => simp [authenticate, h4, hr, truthy] at h
    | some s =>
      by_cases hs0 : s = ""
      · simp [authenticate, h4, hr, hs0, truthy] at h
      · have hst : truthy (some s) = true := by
          simp [truthy]
          exact hs0
        have hts : s = t := by
          simp [authenticate, h4, hr, hst] at h
          exact h
        have h2 : (authenticate tok0 resp).2 = some t := by
          rw [← hts]
          simp [authenticate, h4, hr, hst]
        refine ⟨h2, ?_, hnone⟩
        rw [h2]
        have hstt : truthy (some t) = true := hts ▸ hst
        simp only [ercotHeaders, hstt, if_true]
        refine lookupKV_append_single _ _ _ hkeyless

/-- Witness for `bearer_token_after_authenticate`: a 200 response whose
body carries `id_token = "tok123"`. -/
theorem bearer_token_after_authenticate_witness :
    (authenticate none ⟨200, some "tok123"⟩).2 = some "tok123" ∧
    lookupKV (ercotHeaders ⟨none, false⟩
        (authenticate none ⟨200, some "tok123"⟩).2) "Authorization"
      = some ("Bearer " ++ "tok123") ∧
    lookupKV (ercotHeaders ⟨none, false⟩ none) "Authorization" = none :=
  bearer_token_after_authenticate ⟨none, false⟩ none ⟨200, some "tok123"⟩
    "tok123" (by rfl)

/-- C10: a failed `authenticate` — non-2xx status, or a response lacking
a non-empty `id_token` — leaves the stored bearer token exactly as it
was; the raise precedes the assignment in the source. -/
theorem authenticate_failure_keeps_token (tok0 : Option String)
    (resp : TokenResponse) (e : String)
    (h : (authenticate tok0 resp).1 = .error e) :
    (authenticate tok0 resp).2 = tok0 := by
  by_cases h4 : resp.status ≥ 400
  · simp [authenticate, h4]
  · cases htok : truthy resp.idToken
    · simp [authenticate, h4, htok]
    · simp [authenticate, h4, htok] at h

/-- Witness for `authenticate_failure_keeps_token`: a 500 response
leaves the previously stored token in place. -/
theorem authenticate_failure_keeps_token_witness :
    (authenticate (some "old") ⟨500, some "fresh"⟩).2 = some "old" :=
  authenticate_failure_keeps_token (some "old") ⟨500, some "fresh"⟩
    "HTTPError" (by rfl)

/-- One acquisition attempt keeps the timestamp deque within the
configured bound: purging only shrinks it and the admission instant is
appended only when strictly fewer than `limit` entries remain. -/
theorem rateLimitStep_length_le (limit : Nat) (window : Int)
    (ts : List Int) (now : Int) (h : ts.length ≤ limit) :
    (rateLimitStep limit window ts now).length ≤ limit := by
  have hd : (ts.dropWhile (fun t => t ≤ now - window)).length ≤ ts.length :=
    (List.dropWhile_sublist _).length_le
  simp only [rateLimitStep]
  split
  · next hlt =>
      simp only [List.length_append, List.length_cons, List.length_nil]
      omega
  · next hge => omega

/-- C9: for a configured limit `maxRequests > 0`, the rate limiter's
recorded timestamp sequence never exceeds `maxRequests` entries after
any sequence of acquisition attempts starting from the empty deque. -/
theorem rate_limiter_never_exceeds (limit : Nat) (_h0 : 0 < limit)
    (window : Int) (nows : List Int) :
    (rateLimitRun limit window nows).length ≤ limit := by
  suffices hgen : ∀ ts, ts.length ≤ limit →
      (nows.foldl (rateLimitStep limit window) ts).length ≤ limit by
    exact hgen [] (by simp)
  induction nows with
  | nil => intro ts h; simpa using h
  | cons a l ih =>
    intro ts h
    simp only [List.foldl_cons]
    exact ih _ (rateLimitStep_length_le _ _ _ _ h)

/-- Witness for `rate_limiter_never_exceeds`: limit 2, window 60, five
back-to-back acquisition attempts. -/
theorem rate_limiter_never_exceeds_witness :
    0 < 2 ∧ (rateLimitRun 2 60 [0, 1, 2, 61, 62]).length ≤ 2 :=
  ⟨by decide, rate_limiter_never_exceeds 2 (by decide) 60 [0, 1, 2, 61, 62]⟩

/-- Each loop iteration of `iter_report_pages` requests the next page
index: the yielded page indices are consecutive starting from the first
requested page. -/
theorem iterPagesGo_map_fst (fetch : Nat → Payload) (mp : Option Nat) :
    ∀ (fuel page fetched : Nat),
      (iterPagesGo fetch mp fuel page fetched).map Prod.fst =
        List.range' page (iterPagesGo fetch mp fuel page fetched).length := by
  intro fuel
  induction fuel with
  | zero => intro page fetched; simp [iterPagesGo]
  | succ fuel ih =>
    intro page fetched
    simp only [iterPagesGo]
    split
    · simp [List.range'_succ]
    · split
      · simp [List.range'_succ]
      · simp only [List.map_cons, List.length_cons, List.range'_succ]
        rw [ih]

/-- Page count of `iter_report_pages` without a page cap: when the first
stopping payload sits at index `k`, exactly the pages `0..k` are
yielded.  Stated for a start page equal to the fetched counter, which is
the invariant of the loop. -/
theorem iterPagesGo_none_length (fetch : Nat → Payload) (k : Nat)
    (hk : metaStops (fetch k) = true)
    (hlt : ∀ j, j < k → metaStops (fetch j) = false) :
    ∀ (fuel p : Nat), p ≤ k → k < p + fuel →
      (iterPagesGo fetch none fuel p p).length = k + 1 - p := by
  intro fuel
  induction fuel with
  | zero => intro p hp hf; omega
  | succ fuel ih =>
    intro p hp hf
    simp only [iterPagesGo, Option.map_none', Option.getD_none,
      Bool.false_eq_true, if_false]
    by_cases hpk : p = k
    · subst hpk
      simp only [hk, if_true]
      simp only [List.length_cons, List.length_nil]
      omega
    · have hplt : p < k := lt_of_le_of_ne hp hpk
      simp only [hlt p hplt, Bool.false_eq_true, if_false,
        List.length_cons]
      rw [ih (p + 1) (by omega) (by omega)]
      omega

/-- Page count of `iter_report_pages` with a positive page cap `m`: the
run stops at whichever bound comes first. -/
theorem iterPagesGo_some_length (fetch : Nat → Payload) (k : Nat)
    (hk : metaStops (fetch k) = true)
    (hlt : ∀ j, j < k → metaStops (fetch j) = false) (m : Nat) :
    ∀ (fuel p : Nat), p ≤ k → k < p + fuel → p < m →
      (iterPagesGo fetch (some m) fuel p p).length =
        min (m - p) (k + 1 - p) := by
  intro fuel
  induction fuel with
  | zero => intro p hp hf hm; omega
  | succ fuel ih =>
    intro p hp hf hm
    simp only [iterPagesGo, Option.map_some', Option.getD_some]
    by_cases h1 : p + 1 ≥ m
    · simp only [decide_eq_true h1]
      simp only [if_true, List.length_cons, List.length_nil]
      have hmp : m - p = 1 := by omega
      rw [hmp, Nat.min_eq_left (by omega)]
    · simp only [decide_eq_false h1]
      simp only [Bool.false_eq_true, if_false]
      by_cases hpk : p = k
      · subst hpk
        simp only [hk, if_true, List.length_cons, List.length_nil]
        rw [Nat.min_eq_right (by omega)]
        omega
      · have hplt : p < k := lt_of_le_of_ne hp hpk
        simp only [hlt p hplt, Bool.false_eq_true, if_false,
          List.length_cons]
        rw [ih (p + 1) (by omega) (by omega) (by omega)]
        simp only [Nat.min_def]
        split_ifs <;> omega

/-- C5 amended: with the first stopping payload at index `k` (metadata
missing, or `currentPage + 1 ≥ totalPages`), `iter_report_pages` yields
exactly `min maxPages (k + 1)` payloads for any cap `maxPages ≥ 1` and
exactly `k + 1` payloads with no cap, and the requested page indices
increase strictly from 0. -/
theorem iter_report_pages_pagination (fetch : Nat → Payload) (k : Nat)
    (hk : metaStops (fetch k) = true)
    (hlt : ∀ j, j < k → metaStops (fetch j) = false)
    (fuel : Nat) (hfuel : k < fuel) :
    (∀ m, 1 ≤ m →
      (iterReportPages fetch (some m) fuel).length = min m (k + 1)) ∧
    (iterReportPages fetch none fuel).length = k + 1 ∧
    (∀ mp, (iterReportPages fetch mp fuel).map Prod.fst =
      List.range ((iterReportPages fetch mp fuel).length)) := by
  refine ⟨?_, ?_, ?_⟩
  · intro m hm
    have h := iterPagesGo_some_length fetch k hk hlt m fuel 0
      (Nat.zero_le _) (by omega) (by omega)
    simpa [iterReportPages] using h
  · have h := iterPagesGo_none_length fetch k hk hlt fuel 0
      (Nat.zero_le _) (by omega)
    simpa [iterReportPages] using h
  · intro mp
    simp only [iterReportPages]
    rw [iterPagesGo_map_fst, List.range_eq_range']

/-- Witness for `iter_report_pages_pagination`: the spec's own example,
pages `{totalPages: 2, currentPage: 0}` then `{totalPages: 2,
currentPage: 1}`, yields exactly two payloads with or without the cap
`maxPages = 2`. -/
theorem iter_report_pages_pagination_witness :
    (iterReportPages
        (fun n => if n = 0 then ⟨some 2, some 0⟩ else ⟨some 2, some 1⟩)
        none 5).length = 1 + 1 ∧
    (iterReportPages
        (fun n => if n = 0 then ⟨some 2, some 0⟩ else ⟨some 2, some 1⟩)
        (some 2) 5).length = min 2 (1 + 1) :=
  have h := iter_report_pages_pagination
    (fun n => if n = 0 then ⟨some 2, some 0⟩ else ⟨some 2, some 1⟩) 1
    (by decide)
    (by
      intro j hj
      have hj0 : j = 0 := by omega
      subst hj0
      decide)
    5 (by omega)
  ⟨h.2.1, h.1 2 (by omega)⟩

/-- C5 counterexample: with `max_pages = 0` the loop still fetches and
yields the first page before checking the cap, so it yields one payload
where the claim's `min(maxPages, natural-end)` formula demands zero. -/
theorem iter_report_pages_max_pages_zero :
    (iterReportPages (fun _ => ⟨none, none⟩) (some 0) 10).length = 1 ∧
    (iterReportPages (fun _ => ⟨none, none⟩) (some 0) 10).length ≠
      min 0 1 := by
  constructor
  · rfl
  · decide

/-- `flatMap` only depends on the function's values on the list. -/
theorem flatMap_congr_mem {α β : Type} (l : List α) (f g : α → List β)
    (h : ∀ a ∈ l, f a = g a) : l.flatMap f = l.flatMap g := by
  induction l with
  | nil => rfl
  | cons a t ih =>
    rw [List.flatMap_cons, List.flatMap_cons, h a (by simp),
      ih (fun x hx => h x (by simp [hx]))]

/-- Download calls add up over concatenated traces. -/
theorem countDownloads_append (l₁ l₂ : List ArchiveEvent) :
    countDownloads (l₁ ++ l₂) = countDownloads l₁ + countDownloads l₂ := by
  simp [countDownloads, List.filter_append]

/-- An item whose current attempt does not fail finishes this attempt:
one download, then either the already-present notice or the
extraction. -/
theorem archiveItemGo_ok (dirExists : Int → Bool) (failsAt : Int → Nat → Bool)
    (i : Int) (attempt left : Nat) (h : failsAt i attempt = false) :
    archiveItemGo dirExists failsAt i attempt left =
      .download i ::
        (if dirExists i then [.alreadyExist i] else [.extract i]) := by
  cases left <;> simp [archiveItemGo, h]

/-- An item that fails on every attempt runs exactly four download
attempts (the initial one plus `max_retry = 3` retries), prints
`'retrying'` after each of the first three, and then stops with no
further output. -/
theorem archiveItemGo_failAll (dirExists : Int → Bool)
    (failsAt : Int → Nat → Bool) (b : Int)
    (hb : ∀ n, failsAt b n = true) :
    archiveItemGo dirExists failsAt b 0 3 =
      [.download b, .retrying b, .download b, .retrying b, .download b,
       .retrying b, .download b] := by
  simp [archiveItemGo, hb 0, hb 1, hb 2, hb 3]

/-- C1 counterexample: one document id whose destination directory
already exists, downloads never failing — re-running the sync still
performs one download call (not zero) before noticing the directory and
reporting the item as already present. -/
theorem update_archive_downloads_despite_existing_dir :
    countDownloads (updateArchive (fun _ => true) (fun _ _ => false) [7])
      = 1 ∧
    updateArchive (fun _ => true) (fun _ _ => false) [7] =
      [.download 7, .alreadyExist 7] := by
  constructor <;> rfl

/-- C1 amended: the existence check runs only after `download_bundle`
has returned, so an item whose destination directory exists is reported
as already-present and not extracted, but its bundle is still
downloaded; re-invoking sync for a product whose destination
directories all exist performs one download call per item — not zero —
and reports every item as already-present. -/
theorem update_archive_existing_dirs (dirExists : Int → Bool)
    (failsAt : Int → Nat → Bool) (ids : List Int)
    (hd : ∀ i ∈ ids, dirExists i = true)
    (hf : ∀ i n, failsAt i n = false) :
    updateArchive dirExists failsAt ids =
      ids.flatMap (fun i => [.download i, .alreadyExist i]) ∧
    countDownloads (updateArchive dirExists failsAt ids) = ids.length := by
  have h1 : updateArchive dirExists failsAt ids =
      ids.flatMap (fun i => [.download i, .alreadyExist i]) := by
    refine flatMap_congr_mem ids _ _ (fun i hi => ?_)
    rw [archiveItemGo_ok dirExists failsAt i 0 3 (hf i 0), hd i hi]
    rfl
  refine ⟨h1, ?_⟩
  rw [h1]
  clear h1 hd
  induction ids with
  | nil => rfl
  | cons a t ih =>
    rw [List.flatMap_cons, countDownloads_append, ih]
    show (1 : Nat) + t.length = t.length + 1
    omega

/-- Witness for `update_archive_existing_dirs`: two document ids, both
directories present. -/
theorem update_archive_existing_dirs_witness :
    updateArchive (fun _ => true) (fun _ _ => false) [3, 4] =
      [.download 3, .alreadyExist 3, .download 4, .alreadyExist 4] ∧
    countDownloads (updateArchive (fun _ => true) (fun _ _ => false) [3, 4])
      = 2 :=
  have h := update_archive_existing_dirs (fun _ => true) (fun _ _ => false)
    [3, 4] (fun _ _ => rfl) (fun _ _ => rfl)
  ⟨h.1.trans (by rfl), h.2⟩

/-- C2 counterexample: three listed ids where id 2 fails every download
attempt and ids 1 and 3 succeed.  The complete output for id 2 is four
download attempts interleaved with three `'retrying'` notices and
nothing else — the source breaks out of the retry loop silently, so no
failure report is ever emitted for the abandoned item, while ids 1 and 3
are still downloaded and extracted. -/
theorem update_archive_silent_exhaustion :
    eventsFor
        (updateArchive (fun _ => false) (fun i _ => i == 2) [1, 2, 3]) 2 =
      [.download 2, .retrying 2, .download 2, .retrying 2, .download 2,
       .retrying 2, .download 2] ∧
    eventsFor
        (updateArchive (fun _ => false) (fun i _ => i == 2) [1, 2, 3]) 1 =
      [.download 1, .extract 1] ∧
    eventsFor
        (updateArchive (fun _ => false) (fun i _ => i == 2) [1, 2, 3]) 3 =
      [.download 3, .extract 3] := by
  refine ⟨?_, ?_, ?_⟩ <;> rfl

/-- C2 amended: an item that fails on every attempt is retried exactly
`maxRetries = 3` times after the initial attempt and is then abandoned
silently — the loop emits only the download attempts and the per-retry
`'retrying'` notices, no failure report — and the sync proceeds: every
listed id before and after the failing one is still downloaded and
handled. -/
theorem update_archive_retry_exhaustion (dirExists : Int → Bool)
    (failsAt : Int → Nat → Bool) (pre post : List Int) (b : Int)
    (hb : ∀ n, failsAt b n = true)
    (hok : ∀ i, i ∈ pre ∨ i ∈ post → ∀ n, failsAt i n = false) :
    updateArchive dirExists failsAt (pre ++ b :: post) =
      pre.flatMap (fun i => .download i ::
        (if dirExists i then [.alreadyExist i] else [.extract i])) ++
      ([.download b, .retrying b, .download b, .retrying b, .download b,
        .retrying b, .download b] ++
      post.flatMap (fun i => .download i ::
        (if dirExists i then [.alreadyExist i] else [.extract i]))) := by
  simp only [updateArchive, List.flatMap_append, List.flatMap_cons]
  rw [archiveItemGo_failAll dirExists failsAt b hb,
    flatMap_congr_mem pre _ _
      (fun i hi => archiveItemGo_ok dirExists failsAt i 0 3
        (hok i (Or.inl hi) 0)),
    flatMap_congr_mem post _ _
      (fun i hi => archiveItemGo_ok dirExists failsAt i 0 3
        (hok i (Or.inr hi) 0))]

/-- Witness for `update_archive_retry_exhaustion`: the ids `[1, 2, 3]`
with id 2 failing every attempt and no directory present. -/
theorem update_archive_retry_exhaustion_witness :
    updateArchive (fun _ => false) (fun i _ => i == 2) [1, 2, 3] =
      [.download 1, .extract 1, .download 2, .retrying 2, .download 2,
       .retrying 2, .download 2, .retrying 2, .download 2, .download 3,
       .extract 3] :=
  (update_archive_retry_exhaustion (fun _ => false) (fun i _ => i == 2)
    [1] [3] 2 (fun _ => rfl)
    (by
      intro i hi n
      rcases hi with h | h <;> simp at h <;> subst h <;> rfl)).trans
    (by rfl)

end Ercot
